import Mathlib

/-
Verification of the BookArchive persistence and concurrency-control layer
(src/BookArchive.h, src/main.cpp) against its natural-language specification.

The embedding models:
 * the busy-retry execution engine (`executeSQLWithParams`, `executeQuery`),
   with the SQLite step outcomes supplied by an oracle `Nat → StepRc`
   (the outcome of the n-th sqlite3_step call) and the parameter-binding
   outcomes by `bindOk : Nat → Bool`;
 * the event trace each execution emits (lock acquisitions/releases, resets,
   binds, steps, sleeps, error logs), so that ordering and lock-holding
   properties are statements about the trace;
 * the prepared-statement cache with its double-checked lookup;
 * database initialization and the teardown sequence on each process exit
   path.
-/

namespace BookArchive

/-- Mirrors `#define SQLITE_MAX_RETRIES 5` in BookArchive.h. -/
def SQLITE_MAX_RETRIES : Nat := 5

/-- A raw result row as delivered by the store: `sqlite3_column_text` may
return NULL for a column, modelled as `none`. -/
structure RawRow where
  id : Int
  title : Option String
  author : Option String
deriving DecidableEq, Repr

/-- Mirrors `struct Book` (id, title, author). -/
structure Book where
  id : Int
  title : String
  author : String
deriving DecidableEq, Repr

/-- Row marshalling in `executeQuery` (BookArchive.cpp lines 415-425):
`book.title = title ? title : ""` — a NULL column text is replaced by the
empty string. -/
def marshalRow (r : RawRow) : Book :=
  { id := r.id, title := r.title.getD "", author := r.author.getD "" }

/-- Outcome of one `sqlite3_step` call: a data row, SQLITE_BUSY,
SQLITE_DONE, or any other (error) code. -/
inductive StepRc where
  | row (r : RawRow)
  | busy
  | done
  | err
deriving DecidableEq, Repr

/-- Whether a step outcome is SQLITE_DONE (the write success criterion
`rc != SQLITE_DONE` at BookArchive.cpp line 372). -/
def StepRc.isDone : StepRc → Bool
  | StepRc.done => true
  | _ => false

/-- Observable events emitted by the execution engine, in program order:
lock operations on the connection's shared mutex `db_mutex`
(exclusive = `std::lock_guard`, shared = `std::shared_lock`),
`sqlite3_reset` / `sqlite3_clear_bindings`, parameter binds
(`sqlite3_bind_text` at 1-indexed position, `transient` = SQLITE_TRANSIENT
copy semantics), bind-failure log lines, `sqlite3_step` calls, retry
sleeps (milliseconds), and ERROR-level log lines. -/
inductive Ev where
  | lockEx
  | unlockEx
  | lockSh
  | unlockSh
  | reset
  | clearBindings
  | bindText (pos : Nat) (val : String) (transient : Bool)
  | bindFailLog (pos : Nat)
  | step
  | sleep (ms : Nat)
  | errorLog
deriving DecidableEq, Repr

/-- The bind loop shared by `executeSQLWithParams` (lines 349-356) and
`executeQuery` (lines 395-402): parameter `i` (0-based) is bound by
`sqlite3_bind_text(stmt, i + 1, params[i].c_str(), -1, SQLITE_TRANSIENT)`;
on failure the 1-based index `i + 1` is logged and the operation aborts.
Returns the 1-based index of the first failing bind (if any) and the
events emitted. -/
def bindParams (bindOk : Nat → Bool) : List String → Nat → Option Nat × List Ev
  | [], _ => (none, [])
  | p :: rest, i =>
    if bindOk i then
      let r := bindParams bindOk rest (i + 1)
      (r.1, Ev.bindText (i + 1) p true :: r.2)
    else
      (some (i + 1), [Ev.bindText (i + 1) p true, Ev.bindFailLog (i + 1)])

/-- The expected bind-event list when every bind succeeds: the k-th
parameter (0-based, at absolute offset `i`) is bound as text at 1-indexed
position `i + k + 1` with copy semantics. -/
def bindEvents : List String → Nat → List Ev
  | [], _ => []
  | p :: rest, i => Ev.bindText (i + 1) p true :: bindEvents rest (i + 1)

/-- The write retry loop (BookArchive.cpp lines 359-369):
`while ((rc = sqlite3_step(stmt)) == SQLITE_BUSY && retries < SQLITE_MAX_RETRIES)
 { sleep(10 * (1 << retries)); retries++; }`.
`i` is the index of the next step call, `retries` the current retry count,
and `fuel = SQLITE_MAX_RETRIES - retries` (so `fuel = 0` exactly when the
guard `retries < SQLITE_MAX_RETRIES` is false: one final step call is made
and the loop exits whatever its outcome). Returns the final `rc` and the
step/sleep events in order. -/
def writeStepLoop (stepRc : Nat → StepRc) : Nat → Nat → Nat → StepRc × List Ev
  | i, _, 0 => (stepRc i, [Ev.step])
  | i, retries, fuel + 1 =>
    match stepRc i with
    | StepRc.busy =>
      let r := writeStepLoop stepRc (i + 1) (retries + 1) fuel
      (r.1, Ev.step :: Ev.sleep (10 * 2 ^ retries) :: r.2)
    | rc => (rc, [Ev.step])

/-- Model of `BookArchive::executeSQLWithParams` (lines 333-377).
`stmtOk` is whether `getPreparedStatement` returned a handle; `bindOk i`
whether binding parameter `i` (0-based) succeeds; `stepRc n` the outcome
of the n-th step call. Returns the boolean result and the event trace:
reset, clear bindings, binds, then — under the exclusive connection lock —
the step/retry loop, then an error log iff the final rc is not DONE. -/
def executeSQLWithParams (stmtOk : Bool) (bindOk : Nat → Bool)
    (stepRc : Nat → StepRc) (params : List String) : Bool × List Ev :=
  if stmtOk then
    match bindParams bindOk params 0 with
    | (some _, evs) => (false, Ev.reset :: Ev.clearBindings :: evs)
    | (none, evs) =>
      let r := writeStepLoop stepRc 0 0 SQLITE_MAX_RETRIES
      (r.1.isDone,
        Ev.reset :: Ev.clearBindings :: evs
          ++ [Ev.lockEx] ++ r.2 ++ [Ev.unlockEx]
          ++ if r.1.isDone then [] else [Ev.errorLog])
  else (false, [])

/-- How a read scan terminated. -/
inductive ReadExit where
  | done
  | errStop
  | fuelOut
  | prepFail
  | bindAbort
deriving DecidableEq, Repr

/-- Result of a read execution: collected records, event trace, number of
step calls consumed, and how the scan ended. -/
structure ReadResult where
  books : List Book
  trace : List Ev
  calls : Nat
  rexit : ReadExit
deriving DecidableEq, Repr

/-- The read scan loop of `BookArchive::executeQuery` (lines 404-438).
Each iteration takes the shared lock only around the single `sqlite3_step`
call and releases it before anything else. On SQLITE_ROW the row is
marshalled and appended; on SQLITE_BUSY with `retries < SQLITE_MAX_RETRIES`
the loop sleeps `10 * (1 << retries)` and increments `retries` — the
counter is declared once before the loop and never reset, so the budget is
shared by the entire scan; a busy with the budget exhausted falls through
to the error branch (log + break), as does any other error code;
SQLITE_DONE ends the scan normally. `fuel` bounds the number of step calls
(a modelling artifact: `fuelOut` marks runs that were cut off). -/
def readLoop (stepRc : Nat → StepRc) : Nat → Nat → Nat → ReadResult
  | _, _, 0 => ⟨[], [], 0, ReadExit.fuelOut⟩
  | i, retries, fuel + 1 =>
    match stepRc i with
    | StepRc.row raw =>
      let r := readLoop stepRc (i + 1) retries fuel
      ⟨marshalRow raw :: r.books,
       Ev.lockSh :: Ev.step :: Ev.unlockSh :: r.trace, r.calls + 1, r.rexit⟩
    | StepRc.busy =>
      if retries < SQLITE_MAX_RETRIES then
        let r := readLoop stepRc (i + 1) (retries + 1) fuel
        ⟨r.books,
         Ev.lockSh :: Ev.step :: Ev.unlockSh :: Ev.sleep (10 * 2 ^ retries) :: r.trace,
         r.calls + 1, r.rexit⟩
      else
        ⟨[], [Ev.lockSh, Ev.step, Ev.unlockSh, Ev.errorLog], 1, ReadExit.errStop⟩
    | StepRc.done => ⟨[], [Ev.lockSh, Ev.step, Ev.unlockSh], 1, ReadExit.done⟩
    | StepRc.err => ⟨[], [Ev.lockSh, Ev.step, Ev.unlockSh, Ev.errorLog], 1, ReadExit.errStop⟩

/-- Model of `BookArchive::executeQuery` (lines 379-447): prepared-statement
lookup, reset + clear bindings, bind loop (aborting with the empty result
on a bind failure), then the scan loop. The collected rows are returned
whatever way the scan ended. -/
def executeQuery (stmtOk : Bool) (bindOk : Nat → Bool) (stepRc : Nat → StepRc)
    (params : List String) (fuel : Nat) : ReadResult :=
  if stmtOk then
    match bindParams bindOk params 0 with
    | (some _, evs) => ⟨[], Ev.reset :: Ev.clearBindings :: evs, 0, ReadExit.bindAbort⟩
    | (none, evs) =>
      let r := readLoop stepRc 0 0 fuel
      ⟨r.books, Ev.reset :: Ev.clearBindings :: evs ++ r.trace, r.calls, r.rexit⟩
  else ⟨[], [], 0, ReadExit.prepFail⟩

/-- Modelled from claim C2's words, NOT from the source: a scan loop in
which "the retry budget applies anew for each step" — the retry counter is
reset to zero each time a step succeeds in producing a row, so every
individual step is entitled to up to `SQLITE_MAX_RETRIES` fresh retries.
Used only to compare the claim's reading against the source's behavior. -/
def readLoopPerStep (stepRc : Nat → StepRc) : Nat → Nat → Nat → ReadResult
  | _, _, 0 => ⟨[], [], 0, ReadExit.fuelOut⟩
  | i, retries, fuel + 1 =>
    match stepRc i with
    | StepRc.row raw =>
      let r := readLoopPerStep stepRc (i + 1) 0 fuel
      ⟨marshalRow raw :: r.books,
       Ev.lockSh :: Ev.step :: Ev.unlockSh :: r.trace, r.calls + 1, r.rexit⟩
    | StepRc.busy =>
      if retries < SQLITE_MAX_RETRIES then
        let r := readLoopPerStep stepRc (i + 1) (retries + 1) fuel
        ⟨r.books,
         Ev.lockSh :: Ev.step :: Ev.unlockSh :: Ev.sleep (10 * 2 ^ retries) :: r.trace,
         r.calls + 1, r.rexit⟩
      else
        ⟨[], [Ev.lockSh, Ev.step, Ev.unlockSh, Ev.errorLog], 1, ReadExit.errStop⟩
    | StepRc.done => ⟨[], [Ev.lockSh, Ev.step, Ev.unlockSh], 1, ReadExit.done⟩
    | StepRc.err => ⟨[], [Ev.lockSh, Ev.step, Ev.unlockSh, Ev.errorLog], 1, ReadExit.errStop⟩

/-- Per-step-budget variant of `executeQuery`, modelled from claim C2's
words; only the scan loop differs. -/
def executeQueryPerStep (stmtOk : Bool) (bindOk : Nat → Bool) (stepRc : Nat → StepRc)
    (params : List String) (fuel : Nat) : ReadResult :=
  if stmtOk then
    match bindParams bindOk params 0 with
    | (some _, evs) => ⟨[], Ev.reset :: Ev.clearBindings :: evs, 0, ReadExit.bindAbort⟩
    | (none, evs) =>
      let r := readLoopPerStep stepRc 0 0 fuel
      ⟨r.books, Ev.reset :: Ev.clearBindings :: evs ++ r.trace, r.calls, r.rexit⟩
  else ⟨[], [], 0, ReadExit.prepFail⟩

/-- The sleep durations occurring in a trace, in order. -/
def sleepsOf (t : List Ev) : List Nat :=
  t.filterMap fun e =>
    match e with
    | Ev.sleep d => some d
    | _ => none

/-- The raw rows among the outcomes of step calls `i, i+1, ..., i+n-1`,
in order. -/
def rawRowsIn (stepRc : Nat → StepRc) : Nat → Nat → List RawRow
  | _, 0 => []
  | i, n + 1 =>
    match stepRc i with
    | StepRc.row r => r :: rawRowsIn stepRc (i + 1) n
    | _ => rawRowsIn stepRc (i + 1) n

/-- Statement handles are modelled as numbers; the cache
(`std::unordered_map<std::string, sqlite3_stmt*> stmt_cache`) as an
association list keyed by exact SQL text. -/
def stmtLookup (cache : List (String × Nat)) (sql : String) : Option Nat :=
  match cache.find? (fun p => p.1 == sql) with
  | some p => some p.2
  | none => none

/-- State of the statement cache: the mapping, the next fresh handle to
hand out on a successful compile, and the log of every
`sqlite3_prepare_v2` invocation (by SQL text, in order). -/
structure CacheState where
  cache : List (String × Nat)
  nextHandle : Nat
  compileLog : List String
deriving DecidableEq, Repr

/-- Model of `BookArchive::getPreparedStatement` (BookArchive.cpp lines
302-331): look up under the shared cache lock; on miss, take the exclusive
lock and re-check (another caller may have inserted meanwhile — in this
sequential model the re-check sees the same state); on a confirmed miss,
compile. A successful compile is inserted into the cache; a failed compile
logs and returns null WITHOUT inserting anything. `compileOk sql` is
whether `sqlite3_prepare_v2` succeeds on that text. -/
def getPreparedStatement (compileOk : String → Bool) (st : CacheState)
    (sql : String) : Option Nat × CacheState :=
  match stmtLookup st.cache sql with
  | some h => (some h, st)
  | none =>
    match stmtLookup st.cache sql with
    | some h => (some h, st)
    | none =>
      if compileOk sql then
        (some st.nextHandle,
         ⟨st.cache ++ [(sql, st.nextHandle)], st.nextHandle + 1,
          st.compileLog ++ [sql]⟩)
      else
        (none, ⟨st.cache, st.nextHandle, st.compileLog ++ [sql]⟩)

/-- A sequence of `getPreparedStatement` requests, threaded through the
cache state. -/
def runRequests (compileOk : String → Bool) : CacheState → List String → CacheState
  | st, [] => st
  | st, sql :: rest => runRequests compileOk (getPreparedStatement compileOk st sql).2 rest

/-- The cache at connection startup: empty. -/
def initialCacheState : CacheState := ⟨[], 0, []⟩

/-- Model of `BookArchive::cleanupStatements` (lines 290-300): finalizes
every cached handle and clears the map; used only at shutdown. -/
def cleanupStatements (st : CacheState) : CacheState :=
  ⟨[], st.nextHandle, st.compileLog⟩

/-- Events logged during `initializeDatabase` (BookArchive.cpp lines
192-250): ERROR log lines for a failed open, a failed pragma (by index in
the fixed pragma array), a failed table creation, a failed index
creation. -/
inductive InitEv where
  | openErrLog
  | pragmaErrLog (i : Nat)
  | tableErrLog
  | indexErrLog
deriving DecidableEq, Repr

/-- The fixed pragma array has five entries (foreign_keys, journal_mode,
synchronous, cache_size, temp_store). -/
def PRAGMA_COUNT : Nat := 5

/-- Model of `BookArchive::initializeDatabase` (lines 192-250): a failed
open logs and returns false; each failed pragma logs an error but the
loop continues; a failed table creation logs and returns false; a failed
index creation logs an error but the function still returns true.
`openOk`, `pragmaOk i`, `tableOk`, `indexOk` give the outcome of each
`sqlite3_exec`/`sqlite3_open` call. Returns success and the error-log
events in order. -/
def initDatabase (openOk : Bool) (pragmaOk : Nat → Bool)
    (tableOk indexOk : Bool) : Bool × List InitEv :=
  if openOk then
    let pevs := (List.range PRAGMA_COUNT).filterMap
      fun i => if pragmaOk i then none else some (InitEv.pragmaErrLog i)
    if tableOk then
      (true, pevs ++ if indexOk then [] else [InitEv.indexErrLog])
    else (false, pevs ++ [InitEv.tableErrLog])
  else (false, [InitEv.openErrLog])

/-- Model of the `BookArchive` constructor (BookArchive.cpp lines 157-172):
if `initDatabase` reports failure the constructor throws
`std::runtime_error`, aborting construction of the whole system. -/
def constructArchive (openOk : Bool) (pragmaOk : Nat → Bool)
    (tableOk indexOk : Bool) : Except String Unit :=
  if (initDatabase openOk pragmaOk tableOk indexOk).1 then Except.ok ()
  else Except.error "Failed to initialize database"

/-- Teardown actions: finalize all cached statements
(`cleanupStatements`), `sqlite3_close` on the connection, close the log
sink. -/
inductive TdEv where
  | finalizeStmts
  | closeConn
  | closeLog
deriving DecidableEq, Repr

/-- The destructor `BookArchive::~BookArchive` (lines 174-190): cleanup
statements, then close the connection, then close the log file — in that
order. -/
def destructorEvents : List TdEv := [TdEv.finalizeStmts, TdEv.closeConn, TdEv.closeLog]

/-- The process exit paths of main.cpp: normal exit (`delete g_archive`
after `run()` returns, lines 119-121); termination signal (the handler
invokes the destructor explicitly then calls `exit(0)`, lines 27-36); an
exception escaping after successful construction (the catch block deletes
`g_archive`, lines 122-131); and the two failed-construction branches of
`initializeDatabase`, after which the constructor throws and the
destructor of the partially-constructed object never runs. -/
inductive ExitPath where
  | normal
  | signaled
  | errorAfterRun
  | ctorOpenFail
  | ctorSchemaFail
deriving DecidableEq, Repr

/-- The teardown events each exit path actually performs, per the source.
On `normal`, `signaled` and `errorAfterRun` the destructor runs in full.
On `ctorOpenFail`, `initializeDatabase` itself calls `sqlite3_close`
(line 199) before returning false, and the already-constructed `ofstream`
member closes the log file during stack unwinding — but `cleanupStatements`
never runs (the cache is still empty). On `ctorSchemaFail` (table creation
failed, line 235), `initializeDatabase` returns false WITHOUT closing the
open connection, the constructor throws, the destructor never runs, and
only the `ofstream` member cleanup closes the log: the connection is never
closed. -/
def teardownEvents : ExitPath → List TdEv
  | ExitPath.normal => destructorEvents
  | ExitPath.signaled => destructorEvents
  | ExitPath.errorAfterRun => destructorEvents
  | ExitPath.ctorOpenFail => [TdEv.closeConn, TdEv.closeLog]
  | ExitPath.ctorSchemaFail => [TdEv.closeLog]

/-- SQL template and parameter list built by `BookArchive::addBook`
(lines 449-457) before delegating to `executeSQLWithParams`. -/
def addBook (id : Int) (title author : String) : String × List String :=
  ("INSERT INTO books (id, title, author) VALUES (?, ?, ?);",
   [toString id, title, author])

/-- SQL template and parameter list built by `BookArchive::deleteBook`
(lines 468-482). -/
def deleteBook (id : Int) : String × List String :=
  ("DELETE FROM books WHERE id = ?;", [toString id])

/-- SQL template and parameter list built by `BookArchive::updateBook`
(lines 484-503). -/
def updateBook (id : Int) (newTitle newAuthor : String) : String × List String :=
  ("UPDATE books SET title = ?, author = ? WHERE id = ?;",
   [newTitle, newAuthor, toString id])

/-- SQL template and parameter list built by `BookArchive::searchBook`
(lines 505-514): both parameters are the keyword wrapped in `%`. -/
def searchBook (keyword : String) : String × List String :=
  ("SELECT * FROM books WHERE title LIKE ? OR author LIKE ? ORDER BY id;",
   ["%" ++ keyword ++ "%", "%" ++ keyword ++ "%"])

/-- SQL template and (empty) parameter list used by
`BookArchive::displayBooks` (lines 536-560). -/
def displayBooks : String × List String :=
  ("SELECT * FROM books ORDER BY id;", [])

/-- Traces in which the shared lock is taken once per step call and
released immediately after it, before any sleep or error log: the trace is
a sequence of `[lockSh, step, unlockSh]` blocks, each optionally followed
by one sleep, with at most a final error-log event. Exactly the shape the
read scan loop emits. -/
inductive ShTrace : List Ev → Prop
  | nil : ShTrace []
  | errEnd : ShTrace [Ev.errorLog]
  | blk (rest : List Ev) : ShTrace rest →
      ShTrace (Ev.lockSh :: Ev.step :: Ev.unlockSh :: rest)
  | blkSleep (d : Nat) (rest : List Ev) : ShTrace rest →
      ShTrace (Ev.lockSh :: Ev.step :: Ev.unlockSh :: Ev.sleep d :: rest)

/-! ## Helper lemmas -/

theorem bindParams_all_ok (bindOk : Nat → Bool) :
    ∀ (params : List String) (i : Nat),
      (∀ k, k < params.length → bindOk (i + k) = true) →
      bindParams bindOk params i = (none, bindEvents params i)
  | [], _, _ => rfl
  | p :: rest, i, h => by
    have h0 : bindOk i = true := by simpa using h 0 (Nat.succ_pos _)
    have ih := bindParams_all_ok bindOk rest (i + 1) (fun k hk => by
      have hx := h (k + 1) (Nat.succ_lt_succ hk)
      simpa [show i + (k + 1) = i + 1 + k by omega] using hx)
    simp [bindParams, bindEvents, h0, ih]

theorem writeStepLoop_events (stepRc : Nat → StepRc) :
    ∀ (fuel i retries : Nat), ∀ e ∈ (writeStepLoop stepRc i retries fuel).2,
      e = Ev.step ∨ ∃ d, e = Ev.sleep d := by
  intro fuel
  induction fuel with
  | zero =>
    intro i retries e he
    simp [writeStepLoop] at he
    exact Or.inl he
  | succ f ih =>
    intro i retries e he
    cases h : stepRc i with
    | busy =>
      simp [writeStepLoop, h] at he
      rcases he with h1 | h2 | h3
      · exact Or.inl h1
      · exact Or.inr ⟨_, h2⟩
      · exact ih (i + 1) (retries + 1) e h3
    | row raw => simp [writeStepLoop, h] at he; exact Or.inl he
    | done => simp [writeStepLoop, h] at he; exact Or.inl he
    | err => simp [writeStepLoop, h] at he; exact Or.inl he

theorem sleepsOf_append (a b : List Ev) : sleepsOf (a ++ b) = sleepsOf a ++ sleepsOf b := by
  simp [sleepsOf, List.filterMap_append]

theorem sleepsOf_bindEvents : ∀ (params : List String) (i : Nat),
    sleepsOf (bindEvents params i) = []
  | [], _ => rfl
  | p :: rest, i => by
    simp [bindEvents, sleepsOf] at *
    simpa [sleepsOf] using sleepsOf_bindEvents rest (i + 1)

theorem readLoop_ShTrace (stepRc : Nat → StepRc) :
    ∀ (fuel i retries : Nat), ShTrace (readLoop stepRc i retries fuel).trace := by
  intro fuel
  induction fuel with
  | zero => intro i retries; exact ShTrace.nil
  | succ f ih =>
    intro i retries
    cases h : stepRc i with
    | row raw =>
      simp only [readLoop, h]
      exact ShTrace.blk _ (ih (i + 1) retries)
    | busy =>
      by_cases hr : retries < SQLITE_MAX_RETRIES
      · simp only [readLoop, h, if_pos hr]
        exact ShTrace.blkSleep _ _ (ih (i + 1) (retries + 1))
      · simp only [readLoop, h, if_neg hr]
        exact ShTrace.blk _ ShTrace.errEnd
    | done =>
      simp only [readLoop, h]
      exact ShTrace.blk _ ShTrace.nil
    | err =>
      simp only [readLoop, h]
      exact ShTrace.blk _ ShTrace.errEnd

@[simp]
theorem sleepsOf_nil : sleepsOf [] = [] := rfl

@[simp]
theorem sleepsOf_reset_cons (t : List Ev) : sleepsOf (Ev.reset :: t) = sleepsOf t := rfl

@[simp]
theorem sleepsOf_clear_cons (t : List Ev) :
    sleepsOf (Ev.clearBindings :: t) = sleepsOf t := rfl

@[simp]
theorem sleepsOf_lockEx_cons (t : List Ev) : sleepsOf (Ev.lockEx :: t) = sleepsOf t := rfl

@[simp]
theorem sleepsOf_unlockEx_cons (t : List Ev) :
    sleepsOf (Ev.unlockEx :: t) = sleepsOf t := rfl

@[simp]
theorem sleepsOf_lockSh_cons (t : List Ev) : sleepsOf (Ev.lockSh :: t) = sleepsOf t := rfl

@[simp]
theorem sleepsOf_unlockSh_cons (t : List Ev) :
    sleepsOf (Ev.unlockSh :: t) = sleepsOf t := rfl

@[simp]
theorem sleepsOf_step_cons (t : List Ev) : sleepsOf (Ev.step :: t) = sleepsOf t := rfl

@[simp]
theorem sleepsOf_bindText_cons (p : Nat) (v : String) (b : Bool) (t : List Ev) :
    sleepsOf (Ev.bindText p v b :: t) = sleepsOf t := rfl

@[simp]
theorem sleepsOf_bindFailLog_cons (p : Nat) (t : List Ev) :
    sleepsOf (Ev.bindFailLog p :: t) = sleepsOf t := rfl

@[simp]
theorem sleepsOf_errorLog_cons (t : List Ev) :
    sleepsOf (Ev.errorLog :: t) = sleepsOf t := rfl

@[simp]
theorem sleepsOf_sleep_cons (d : Nat) (t : List Ev) :
    sleepsOf (Ev.sleep d :: t) = d :: sleepsOf t := rfl

theorem readLoop_sleeps (stepRc : Nat → StepRc) :
    ∀ (fuel i retries : Nat), retries ≤ SQLITE_MAX_RETRIES →
      ∃ m, retries + m ≤ SQLITE_MAX_RETRIES ∧
        sleepsOf (readLoop stepRc i retries fuel).trace =
          (List.range' retries m).map (fun k => 10 * 2 ^ k) := by
  intro fuel
  induction fuel with
  | zero =>
    intro i retries _
    exact ⟨0, by omega, by simp [readLoop]⟩
  | succ f ih =>
    intro i retries hr
    cases h : stepRc i with
    | row raw =>
      obtain ⟨m, hm, hs⟩ := ih (i + 1) retries hr
      exact ⟨m, hm, by simp [readLoop, h, hs]⟩
    | busy =>
      by_cases hlt : retries < SQLITE_MAX_RETRIES
      · obtain ⟨m, hm, hs⟩ := ih (i + 1) (retries + 1) (by omega)
        refine ⟨m + 1, by omega, ?_⟩
        simp [readLoop, h, if_pos hlt, hs, List.range'_succ]
      · exact ⟨0, by omega, by simp [readLoop, h, if_neg hlt]⟩
    | done => exact ⟨0, by omega, by simp [readLoop, h]⟩
    | err => exact ⟨0, by omega, by simp [readLoop, h]⟩

/-! ## Claim theorems -/

/-- C1: a write whose step reports SQLITE_BUSY on every call returns false
after exhausting the retry budget, having slept exactly the delays
10, 20, 40, 80, 160 (doubling from 10, total 310), all of them while the
exclusive connection lock is held (the sleeps lie strictly between the
single `lockEx` and `unlockEx` of the trace); a contention that has
cleared by the third step call succeeds. -/
theorem executeWrite_retry_backoff :
    ∀ (bindOk : Nat → Bool) (params : List String) (stepRc stepRc3 : Nat → StepRc),
      (∀ k, k < params.length → bindOk k = true) →
      (∀ i, stepRc i = StepRc.busy) →
      stepRc3 0 = StepRc.busy → stepRc3 1 = StepRc.busy → stepRc3 2 = StepRc.done →
      (executeSQLWithParams true bindOk stepRc params).1 = false ∧
      (∃ s, (executeSQLWithParams true bindOk stepRc params).2 =
          Ev.reset :: Ev.clearBindings ::
            (bindEvents params 0 ++ [Ev.lockEx] ++ s ++ [Ev.unlockEx] ++ [Ev.errorLog]) ∧
        sleepsOf s = [10, 20, 40, 80, 160] ∧ (sleepsOf s).sum = 310) ∧
      (executeSQLWithParams true bindOk stepRc3 params).1 = true := by
  intro bindOk params stepRc stepRc3 hb hbusy h0 h1 h2
  have hbp := bindParams_all_ok bindOk params 0 (fun k hk => by simpa using hb k hk)
  have hw : writeStepLoop stepRc 0 0 SQLITE_MAX_RETRIES =
      (StepRc.busy, [Ev.step, Ev.sleep 10, Ev.step, Ev.sleep 20, Ev.step, Ev.sleep 40,
        Ev.step, Ev.sleep 80, Ev.step, Ev.sleep 160, Ev.step]) := by
    simp [SQLITE_MAX_RETRIES, writeStepLoop, hbusy]
  have hw3 : (writeStepLoop stepRc3 0 0 SQLITE_MAX_RETRIES).1 = StepRc.done := by
    simp [SQLITE_MAX_RETRIES, writeStepLoop, h0, h1, h2]
  refine ⟨?_, ?_, ?_⟩
  · simp [executeSQLWithParams, hbp, hw, StepRc.isDone]
  · refine ⟨[Ev.step, Ev.sleep 10, Ev.step, Ev.sleep 20, Ev.step, Ev.sleep 40,
      Ev.step, Ev.sleep 80, Ev.step, Ev.sleep 160, Ev.step], ?_, by decide, by decide⟩
    simp [executeSQLWithParams, hbp, hw, StepRc.isDone]
  · simp [executeSQLWithParams, hbp, StepRc.isDone]
    cases hq : writeStepLoop stepRc3 0 0 SQLITE_MAX_RETRIES with
    | mk fst snd => simp [hq] at hw3; simp [hw3, StepRc.isDone]

/-- C1 witness: the theorem applied to the always-busy oracle and to an
oracle that clears on the third call, with one parameter. -/
theorem executeWrite_retry_backoff_witness :
    (executeSQLWithParams true (fun _ => true) (fun _ => StepRc.busy) ["1"]).1 = false ∧
    (∃ s, (executeSQLWithParams true (fun _ => true) (fun _ => StepRc.busy) ["1"]).2 =
        Ev.reset :: Ev.clearBindings ::
          (bindEvents ["1"] 0 ++ [Ev.lockEx] ++ s ++ [Ev.unlockEx] ++ [Ev.errorLog]) ∧
      sleepsOf s = [10, 20, 40, 80, 160] ∧ (sleepsOf s).sum = 310) ∧
    (executeSQLWithParams true (fun _ => true)
        (fun i => if i < 2 then StepRc.busy else StepRc.done) ["1"]).1 = true :=
  executeWrite_retry_backoff (fun _ => true) ["1"] (fun _ => StepRc.busy)
    (fun i => if i < 2 then StepRc.busy else StepRc.done)
    (fun _ _ => rfl) (fun _ => rfl) (by decide) (by decide) (by decide)

/-- C9: each of the five record operations builds a constant SQL template
independent of its input values — two runs with different inputs produce
identical SQL text — and the values travel only in the bound-parameter
list. -/
theorem fixed_sql_templates :
    ∀ (i1 i2 : Int) (t1 a1 t2 a2 k1 k2 : String),
      (addBook i1 t1 a1).1 = (addBook i2 t2 a2).1 ∧
      (deleteBook i1).1 = (deleteBook i2).1 ∧
      (updateBook i1 t1 a1).1 = (updateBook i2 t2 a2).1 ∧
      (searchBook k1).1 = (searchBook k2).1 ∧
      (addBook i1 t1 a1).1 = "INSERT INTO books (id, title, author) VALUES (?, ?, ?);" ∧
      (deleteBook i1).1 = "DELETE FROM books WHERE id = ?;" ∧
      (updateBook i1 t1 a1).1 = "UPDATE books SET title = ?, author = ? WHERE id = ?;" ∧
      (searchBook k1).1 = "SELECT * FROM books WHERE title LIKE ? OR author LIKE ? ORDER BY id;" ∧
      displayBooks.1 = "SELECT * FROM books ORDER BY id;" ∧
      (addBook i1 t1 a1).2 = [toString i1, t1, a1] ∧
      (deleteBook i1).2 = [toString i1] ∧
      (updateBook i1 t1 a1).2 = [t1, a1, toString i1] ∧
      (searchBook k1).2 = ["%" ++ k1 ++ "%", "%" ++ k1 ++ "%"] ∧
      displayBooks.2 = [] := by
  intros
  exact ⟨rfl, rfl, rfl, rfl, rfl, rfl, rfl, rfl, rfl, rfl, rfl, rfl, rfl, rfl⟩

/-- C8 counterexample: on the exit path where table creation fails during
construction, the connection is never closed (and on the open-failure path
the statement-finalization step of the teardown sequence never runs), so
the full teardown sequence does not execute on every exit path. -/
theorem teardown_schemaFail_skips_close :
    TdEv.closeConn ∉ teardownEvents ExitPath.ctorSchemaFail ∧
    TdEv.finalizeStmts ∉ teardownEvents ExitPath.ctorOpenFail ∧
    teardownEvents ExitPath.ctorSchemaFail ≠ destructorEvents := by
  decide

/-- C8 amended: the full ordered teardown sequence — finalize every cached
statement, then close the connection, then close the log sink — executes
on normal exit, on signaled termination, and on an error exit after
successful construction; but on failed construction the destructor does
not run: an open failure closes the connection inside initialization and
the log via member cleanup, while a schema-creation failure closes only
the log sink, leaving the connection unclosed. -/
theorem teardown_sequence_by_path :
    teardownEvents ExitPath.normal = [TdEv.finalizeStmts, TdEv.closeConn, TdEv.closeLog] ∧
    teardownEvents ExitPath.signaled = [TdEv.finalizeStmts, TdEv.closeConn, TdEv.closeLog] ∧
    teardownEvents ExitPath.errorAfterRun = [TdEv.finalizeStmts, TdEv.closeConn, TdEv.closeLog] ∧
    teardownEvents ExitPath.ctorOpenFail = [TdEv.closeConn, TdEv.closeLog] ∧
    teardownEvents ExitPath.ctorSchemaFail = [TdEv.closeLog] := by
  decide

/-- C3: a write holds the connection lock exclusively for the whole retry
loop — its trace has a single `lockEx`/`unlockEx` pair enclosing every
step and every retry sleep (and all sleeps of the trace lie inside it) —
while a read's scan trace consists of `[lockSh, step, unlockSh]` blocks,
one shared acquisition per individual step call, released before any
sleep or error log, so only the step itself is guarded. -/
theorem lock_discipline :
    (∀ (bindOk : Nat → Bool) (stepRc : Nat → StepRc) (params : List String),
      (∀ k, k < params.length → bindOk k = true) →
      ∃ s t, (executeSQLWithParams true bindOk stepRc params).2 =
          Ev.reset :: Ev.clearBindings ::
            (bindEvents params 0 ++ [Ev.lockEx] ++ s ++ [Ev.unlockEx] ++ t) ∧
        (∀ e ∈ s, e = Ev.step ∨ ∃ d, e = Ev.sleep d) ∧
        sleepsOf s = sleepsOf (executeSQLWithParams true bindOk stepRc params).2 ∧
        (t = [] ∨ t = [Ev.errorLog])) ∧
    (∀ (stepRc : Nat → StepRc) (i retries fuel : Nat),
      ShTrace (readLoop stepRc i retries fuel).trace) := by
  constructor
  · intro bindOk stepRc params hb
    have hbp := bindParams_all_ok bindOk params 0 (fun k hk => by simpa using hb k hk)
    refine ⟨(writeStepLoop stepRc 0 0 SQLITE_MAX_RETRIES).2,
      if (writeStepLoop stepRc 0 0 SQLITE_MAX_RETRIES).1.isDone then []
        else [Ev.errorLog],
      ?_, writeStepLoop_events stepRc SQLITE_MAX_RETRIES 0 0, ?_, ?_⟩
    · simp [executeSQLWithParams, hbp]
    · cases hd : (writeStepLoop stepRc 0 0 SQLITE_MAX_RETRIES).1.isDone <;>
        simp [executeSQLWithParams, hbp, hd, sleepsOf_append, sleepsOf_bindEvents]
    · cases hd : (writeStepLoop stepRc 0 0 SQLITE_MAX_RETRIES).1.isDone <;> simp [hd]
  · exact fun stepRc i retries fuel => readLoop_ShTrace stepRc fuel i retries

/-- C3 witness: the write part of the theorem applied to a one-parameter
write whose single step succeeds, and the read part at a concrete scan. -/
theorem lock_discipline_witness :
    (∃ s t, (executeSQLWithParams true (fun _ => true) (fun _ => StepRc.done) ["x"]).2 =
        Ev.reset :: Ev.clearBindings ::
          (bindEvents ["x"] 0 ++ [Ev.lockEx] ++ s ++ [Ev.unlockEx] ++ t) ∧
      (∀ e ∈ s, e = Ev.step ∨ ∃ d, e = Ev.sleep d) ∧
      sleepsOf s = sleepsOf (executeSQLWithParams true (fun _ => true)
        (fun _ => StepRc.done) ["x"]).2 ∧
      (t = [] ∨ t = [Ev.errorLog])) ∧
    ShTrace (readLoop (fun _ => StepRc.done) 0 0 4).trace :=
  ⟨lock_discipline.1 (fun _ => true) (fun _ => StepRc.done) ["x"] (fun _ _ => rfl),
   lock_discipline.2 (fun _ => StepRc.done) 0 0 4⟩

/-- C2 counterexample: with the step oracle that is busy on calls 0-4,
yields a row on call 5, is busy once on call 6 (the first contention of
that fresh step), yields a row on call 7 and is done afterwards, the code
aborts the scan at call 6 and returns a single record — the cumulative
budget of 5 was already spent — whereas under the claim's per-step-budget
reading the scan would retry and return both records. -/
theorem executeRead_per_step_budget_refuted :
    ((executeQuery true (fun _ => true)
        (fun i => if i < 5 then StepRc.busy
          else if i = 5 then StepRc.row ⟨1, some "A", some "B"⟩
          else if i = 6 then StepRc.busy
          else if i = 7 then StepRc.row ⟨2, some "C", some "D"⟩
          else StepRc.done) [] 20).books = [⟨1, "A", "B"⟩] ∧
      (executeQuery true (fun _ => true)
        (fun i => if i < 5 then StepRc.busy
          else if i = 5 then StepRc.row ⟨1, some "A", some "B"⟩
          else if i = 6 then StepRc.busy
          else if i = 7 then StepRc.row ⟨2, some "C", some "D"⟩
          else StepRc.done) [] 20).rexit = ReadExit.errStop) ∧
    (executeQueryPerStep true (fun _ => true)
        (fun i => if i < 5 then StepRc.busy
          else if i = 5 then StepRc.row ⟨1, some "A", some "B"⟩
          else if i = 6 then StepRc.busy
          else if i = 7 then StepRc.row ⟨2, some "C", some "D"⟩
          else StepRc.done) [] 20).books = [⟨1, "A", "B"⟩, ⟨2, "C", "D"⟩] := by
  decide

/-- C2 amended: the busy-retry budget of a read is cumulative across the
whole scan, not per step: a single retry counter is initialized once per
query and never reset, so at most `SQLITE_MAX_RETRIES` sleeps occur in the
entire scan, their delays continuing to double (the k-th retry overall
sleeps `10 * 2 ^ k`) rather than restarting at 10 for each step; once the
counter has reached the maximum, any further busy aborts the scan. -/
theorem executeRead_cumulative_budget :
    ∀ (stepRc : Nat → StepRc) (i fuel : Nat),
      (∃ m, m ≤ SQLITE_MAX_RETRIES ∧
        sleepsOf (readLoop stepRc i 0 fuel).trace =
          (List.range' 0 m).map (fun k => 10 * 2 ^ k)) ∧
      (∀ j, stepRc j = StepRc.busy →
        (readLoop stepRc j SQLITE_MAX_RETRIES (fuel + 1)).books = [] ∧
        (readLoop stepRc j SQLITE_MAX_RETRIES (fuel + 1)).rexit = ReadExit.errStop) ∧
      (∀ (bindOk : Nat → Bool) (params : List String),
        (∀ k, k < params.length → bindOk k = true) →
        sleepsOf (executeQuery true bindOk stepRc params fuel).trace =
          sleepsOf (readLoop stepRc 0 0 fuel).trace) := by
  intro stepRc i fuel
  refine ⟨?_, ?_, ?_⟩
  · obtain ⟨m, hm, hs⟩ := readLoop_sleeps stepRc fuel i 0 (by omega)
    exact ⟨m, by omega, by simpa using hs⟩
  · intro j hj
    constructor <;> simp [readLoop, hj]
  · intro bindOk params hb
    have hbp := bindParams_all_ok bindOk params 0 (fun k hk => by simpa using hb k hk)
    simp [executeQuery, hbp, sleepsOf_append, sleepsOf_bindEvents]

/-- C2 amended witness: the theorem applied to the always-busy oracle. -/
theorem executeRead_cumulative_budget_witness :
    (∃ m, m ≤ SQLITE_MAX_RETRIES ∧
      sleepsOf (readLoop (fun _ => StepRc.busy) 0 0 7).trace =
        (List.range' 0 m).map (fun k => 10 * 2 ^ k)) ∧
    (readLoop (fun _ => StepRc.busy) 0 SQLITE_MAX_RETRIES 8).books = [] ∧
    (readLoop (fun _ => StepRc.busy) 0 SQLITE_MAX_RETRIES 8).rexit = ReadExit.errStop ∧
    sleepsOf (executeQuery true (fun _ => true) (fun _ => StepRc.busy) [] 7).trace =
      sleepsOf (readLoop (fun _ => StepRc.busy) 0 0 7).trace :=
  ⟨(executeRead_cumulative_budget (fun _ => StepRc.busy) 0 7).1,
   ((executeRead_cumulative_budget (fun _ => StepRc.busy) 0 7).2.1 0 rfl).1,
   ((executeRead_cumulative_budget (fun _ => StepRc.busy) 0 7).2.1 0 rfl).2,
   (executeRead_cumulative_budget (fun _ => StepRc.busy) 0 7).2.2 (fun _ => true) []
     (fun k hk => absurd hk (Nat.not_lt_zero k))⟩

theorem readLoop_books_eq (stepRc : Nat → StepRc) :
    ∀ (fuel i retries : Nat),
      (readLoop stepRc i retries fuel).books =
        (rawRowsIn stepRc i (readLoop stepRc i retries fuel).calls).map marshalRow := by
  intro fuel
  induction fuel with
  | zero => intro i retries; simp [readLoop, rawRowsIn]
  | succ f ih =>
    intro i retries
    cases h : stepRc i with
    | row raw => simp [readLoop, h, rawRowsIn, ih (i + 1) retries]
    | busy =>
      by_cases hlt : retries < SQLITE_MAX_RETRIES
      · simp [readLoop, h, if_pos hlt, rawRowsIn, ih (i + 1) (retries + 1)]
      · simp [readLoop, h, if_neg hlt, rawRowsIn]
    | done => simp [readLoop, h, rawRowsIn]
    | err => simp [readLoop, h, rawRowsIn]

theorem readLoop_errStop_logged (stepRc : Nat → StepRc) :
    ∀ (fuel i retries : Nat),
      (readLoop stepRc i retries fuel).rexit = ReadExit.errStop →
      Ev.errorLog ∈ (readLoop stepRc i retries fuel).trace := by
  intro fuel
  induction fuel with
  | zero => intro i retries hx; simp [readLoop] at hx
  | succ f ih =>
    intro i retries hx
    cases h : stepRc i with
    | row raw =>
      simp [readLoop, h] at hx ⊢
      exact ih (i + 1) retries hx
    | busy =>
      by_cases hlt : retries < SQLITE_MAX_RETRIES
      · simp [readLoop, h, if_pos hlt] at hx ⊢
        exact ih (i + 1) (retries + 1) hx
      · simp [readLoop, h, if_neg hlt]
    | done => simp [readLoop, h] at hx
    | err => simp [readLoop, h]

/-- C6: a read accumulates exactly one record per raw row delivered before
the scan terminates — whether it ends at SQLITE_DONE or stops at an
unrecoverable error, the returned list is precisely the marshalled rows of
the step calls consumed (partial results are returned, not discarded); an
error stop is logged; and `executeQuery` returns exactly the scan loop's
collected rows. -/
theorem executeRead_partial_rows :
    ∀ (stepRc : Nat → StepRc) (i retries fuel : Nat),
      (readLoop stepRc i retries fuel).books =
        (rawRowsIn stepRc i (readLoop stepRc i retries fuel).calls).map marshalRow ∧
      ((readLoop stepRc i retries fuel).rexit = ReadExit.errStop →
        Ev.errorLog ∈ (readLoop stepRc i retries fuel).trace) ∧
      (∀ (bindOk : Nat → Bool) (params : List String),
        (∀ k, k < params.length → bindOk k = true) →
        (executeQuery true bindOk stepRc params fuel).books =
          (readLoop stepRc 0 0 fuel).books) := by
  intro stepRc i retries fuel
  refine ⟨readLoop_books_eq stepRc fuel i retries,
    readLoop_errStop_logged stepRc fuel i retries, ?_⟩
  intro bindOk params hb
  have hbp := bindParams_all_ok bindOk params 0 (fun k hk => by simpa using hb k hk)
  simp [executeQuery, hbp]

/-- C6 witness: the theorem applied to a scan that yields one row and then
hits an unrecoverable error — the single collected row is returned and the
error is logged. -/
theorem executeRead_partial_rows_witness :
    (readLoop (fun j => if j = 0 then StepRc.row ⟨1, some "A", some "B"⟩ else StepRc.err)
        0 0 5).books =
      (rawRowsIn (fun j => if j = 0 then StepRc.row ⟨1, some "A", some "B"⟩ else StepRc.err)
        0 (readLoop (fun j => if j = 0 then StepRc.row ⟨1, some "A", some "B"⟩ else StepRc.err)
            0 0 5).calls).map marshalRow ∧
    Ev.errorLog ∈ (readLoop
      (fun j => if j = 0 then StepRc.row ⟨1, some "A", some "B"⟩ else StepRc.err) 0 0 5).trace ∧
    (executeQuery true (fun _ => true)
        (fun j => if j = 0 then StepRc.row ⟨1, some "A", some "B"⟩ else StepRc.err) [] 5).books =
      (readLoop (fun j => if j = 0 then StepRc.row ⟨1, some "A", some "B"⟩ else StepRc.err)
        0 0 5).books :=
  ⟨(executeRead_partial_rows
      (fun j => if j = 0 then StepRc.row ⟨1, some "A", some "B"⟩ else StepRc.err) 0 0 5).1,
   (executeRead_partial_rows
      (fun j => if j = 0 then StepRc.row ⟨1, some "A", some "B"⟩ else StepRc.err) 0 0 5).2.1
     (by decide),
   (executeRead_partial_rows
      (fun j => if j = 0 then StepRc.row ⟨1, some "A", some "B"⟩ else StepRc.err) 0 0 5).2.2
     (fun _ => true) [] (fun k hk => absurd hk (Nat.not_lt_zero k))⟩

/-- C10: every record a read scan returns arises by marshalling some raw
row the oracle delivered, and marshalling substitutes the empty string for
a NULL title or author column — so returned records always carry
well-defined (never null) text fields. -/
theorem read_marshal_no_null :
    ∀ (stepRc : Nat → StepRc) (fuel i retries : Nat) (b : Book),
      b ∈ (readLoop stepRc i retries fuel).books →
      ∃ raw : RawRow, (∃ j, stepRc j = StepRc.row raw) ∧ b = marshalRow raw ∧
        b.title = raw.title.getD "" ∧ b.author = raw.author.getD "" ∧
        (raw.title = none → b.title = "") ∧ (raw.author = none → b.author = "") := by
  intro stepRc fuel
  induction fuel with
  | zero => intro i retries b hb; simp [readLoop] at hb
  | succ f ih =>
    intro i retries b hb
    cases h : stepRc i with
    | row raw =>
      simp [readLoop, h] at hb
      rcases hb with hb | hb
      · refine ⟨raw, ⟨i, h⟩, hb, by simp [hb, marshalRow], by simp [hb, marshalRow],
          ?_, ?_⟩
        · intro hn; simp [hb, marshalRow, hn]
        · intro hn; simp [hb, marshalRow, hn]
      · exact ih (i + 1) retries b hb
    | busy =>
      by_cases hlt : retries < SQLITE_MAX_RETRIES
      · simp [readLoop, h, if_pos hlt] at hb
        exact ih (i + 1) (retries + 1) b hb
      · simp [readLoop, h, if_neg hlt] at hb
    | done => simp [readLoop, h] at hb
    | err => simp [readLoop, h] at hb

/-- C10 witness: the theorem applied to a scan whose single row has NULL
title and author — the returned record carries empty strings. -/
theorem read_marshal_no_null_witness :
    ∃ raw : RawRow,
      (∃ j, (fun k => if k = 0 then StepRc.row ⟨1, none, none⟩ else StepRc.done) j =
        StepRc.row raw) ∧
      (⟨1, "", ""⟩ : Book) = marshalRow raw ∧
      (⟨1, "", ""⟩ : Book).title = raw.title.getD "" ∧
      (⟨1, "", ""⟩ : Book).author = raw.author.getD "" ∧
      (raw.title = none → (⟨1, "", ""⟩ : Book).title = "") ∧
      (raw.author = none → (⟨1, "", ""⟩ : Book).author = "") :=
  read_marshal_no_null
    (fun k => if k = 0 then StepRc.row ⟨1, none, none⟩ else StepRc.done) 3 0 0
    ⟨1, "", ""⟩ (by decide)

theorem stmtLookup_append_some (cache : List (String × Nat)) (kv : String × Nat)
    (sql : String) (h : Nat) (hl : stmtLookup cache sql = some h) :
    stmtLookup (cache ++ [kv]) sql = some h := by
  unfold stmtLookup at *
  cases hf : cache.find? (fun p => p.1 == sql) with
  | none => simp [hf] at hl
  | some p =>
    have hap : (cache ++ [kv]).find? (fun p => p.1 == sql) = some p := by
      rw [List.find?_append, hf]; rfl
    rw [hf] at hl
    rw [hap]
    exact hl

theorem stmtLookup_append_self (cache : List (String × Nat)) (sql : String) (h : Nat)
    (hl : stmtLookup cache sql = none) :
    stmtLookup (cache ++ [(sql, h)]) sql = some h := by
  unfold stmtLookup at *
  cases hf : cache.find? (fun p => p.1 == sql) with
  | some p => simp [hf] at hl
  | none =>
    rw [List.find?_append, hf]
    simp [List.find?]

theorem stmtLookup_append_none (cache : List (String × Nat)) (kv : String × Nat)
    (sql : String) (hl : stmtLookup (cache ++ [kv]) sql = none) :
    stmtLookup cache sql = none := by
  cases hf : stmtLookup cache sql with
  | none => rfl
  | some x => rw [stmtLookup_append_some cache kv sql x hf] at hl; cases hl

theorem getPreparedStatement_cache_shape (compileOk : String → Bool) (st : CacheState)
    (r : String) :
    (getPreparedStatement compileOk st r).2.cache = st.cache ∨
    (stmtLookup st.cache r = none ∧ compileOk r = true ∧
      (getPreparedStatement compileOk st r).2.cache = st.cache ++ [(r, st.nextHandle)]) := by
  unfold getPreparedStatement
  cases hf : stmtLookup st.cache r with
  | some h => simp [hf]
  | none => by_cases hc : compileOk r <;> simp [hf, hc]

theorem stmtLookup_mono_run (compileOk : String → Bool) :
    ∀ (reqs : List String) (st : CacheState) (key : String) (h : Nat),
      stmtLookup st.cache key = some h →
      stmtLookup (runRequests compileOk st reqs).cache key = some h
  | [], _, _, _, hl => hl
  | r :: rest, st, key, h, hl => by
    apply stmtLookup_mono_run compileOk rest
    rcases getPreparedStatement_cache_shape compileOk st r with hs | ⟨_, _, hs⟩
    · rw [hs]; exact hl
    · rw [hs]; exact stmtLookup_append_some _ _ _ _ hl

theorem compile_once_step (compileOk : String → Bool) (sql : String)
    (hc : compileOk sql = true) (st : CacheState) (r : String)
    (h1 : st.compileLog.count sql ≤ 1)
    (h2 : stmtLookup st.cache sql = none → st.compileLog.count sql = 0) :
    (getPreparedStatement compileOk st r).2.compileLog.count sql ≤ 1 ∧
    (stmtLookup (getPreparedStatement compileOk st r).2.cache sql = none →
      (getPreparedStatement compileOk st r).2.compileLog.count sql = 0) := by
  unfold getPreparedStatement
  cases hf : stmtLookup st.cache r with
  | some h => exact ⟨h1, h2⟩
  | none =>
    by_cases hcr : compileOk r
    · by_cases hr : r = sql
      · subst hr
        have h0 := h2 hf
        constructor
        · simp [hf, hcr, List.count_append, h0]
        · intro hl
          simp only [hf, hcr, if_true] at hl
          rw [stmtLookup_append_self st.cache r st.nextHandle hf] at hl
          cases hl
      · have hcount : (st.compileLog ++ [r]).count sql = st.compileLog.count sql := by
          simp [List.count_append, List.count_singleton', hr]
        constructor
        · simpa [hf, hcr, hcount] using h1
        · intro hl
          simp only [hf, hcr, if_true] at hl ⊢
          have hpre := stmtLookup_append_none st.cache (r, st.nextHandle) sql hl
          simpa [hcount] using h2 hpre
    · have hr : r ≠ sql := fun he => by rw [he] at hcr; exact hcr hc
      have hcount : (st.compileLog ++ [r]).count sql = st.compileLog.count sql := by
        simp [List.count_append, List.count_singleton', hr]
      constructor
      · simp only [hf, hcr, if_false]
        exact le_trans (le_of_eq hcount) h1
      · intro hl
        simp only [hf, hcr, if_false] at hl ⊢
        simpa [hcount] using h2 hl

theorem compile_once_run (compileOk : String → Bool) (sql : String)
    (hc : compileOk sql = true) :
    ∀ (reqs : List String) (st : CacheState),
      st.compileLog.count sql ≤ 1 →
      (stmtLookup st.cache sql = none → st.compileLog.count sql = 0) →
      (runRequests compileOk st reqs).compileLog.count sql ≤ 1
  | [], _, h1, _ => h1
  | r :: rest, st, h1, h2 => by
    obtain ⟨h1', h2'⟩ := compile_once_step compileOk sql hc st r h1 h2
    exact compile_once_run compileOk sql hc rest _ h1' h2'

/-- C4 counterexample: an SQL text whose compilation fails is not inserted
into the cache, so a second request for the same text compiles it again —
two requests invoke the compiler twice, refuting "compiles the statement
at most once over the connection's lifetime" for every SQL text. -/
theorem stmt_cache_failed_compile_recompiles :
    ¬ (runRequests (fun _ => false) initialCacheState ["X", "X"]).compileLog.count "X" ≤ 1 := by
  decide

/-- C4 amended: for every SQL text whose compilation succeeds, the
statement is compiled at most once over the connection's lifetime
(double-checked lookup, compile-and-insert only on a confirmed miss);
cached entries are never evicted by requests — a cached key keeps its
handle across any request sequence — and a request for a cached key
returns that single cached handle. A text whose compilation fails is not
cached and is recompiled on each request. -/
theorem stmt_cache_compile_once :
    ∀ (compileOk : String → Bool) (reqs : List String) (sql : String),
      compileOk sql = true →
      (runRequests compileOk initialCacheState reqs).compileLog.count sql ≤ 1 ∧
      (∀ (st : CacheState) (key : String) (h : Nat),
        stmtLookup st.cache key = some h →
        (getPreparedStatement compileOk st key).1 = some h ∧
        stmtLookup (runRequests compileOk st reqs).cache key = some h) := by
  intro compileOk reqs sql hc
  constructor
  · exact compile_once_run compileOk sql hc reqs initialCacheState
      (by simp [initialCacheState]) (fun _ => by simp [initialCacheState])
  · intro st key h hl
    constructor
    · unfold getPreparedStatement
      rw [hl]
    · exact stmtLookup_mono_run compileOk reqs st key h hl

/-- C4 witness: three requests for the same successfully-compiling text
compile it at most once, and a cached entry survives further requests and
is returned as-is. -/
theorem stmt_cache_compile_once_witness :
    (runRequests (fun _ => true) initialCacheState ["A", "A", "A"]).compileLog.count "A" ≤ 1 ∧
    (getPreparedStatement (fun _ => true)
      (⟨[("A", 7)], 8, ["A"]⟩ : CacheState) "A").1 = some 7 ∧
    stmtLookup (runRequests (fun _ => true)
      (⟨[("A", 7)], 8, ["A"]⟩ : CacheState) ["B", "A"]).cache "A" = some 7 :=
  ⟨(stmt_cache_compile_once (fun _ => true) ["A", "A", "A"] "A" rfl).1,
   ((stmt_cache_compile_once (fun _ => true) ["B", "A"] "A" rfl).2
     (⟨[("A", 7)], 8, ["A"]⟩ : CacheState) "A" 7 (by decide)).1,
   ((stmt_cache_compile_once (fun _ => true) ["B", "A"] "A" rfl).2
     (⟨[("A", 7)], 8, ["A"]⟩ : CacheState) "A" 7 (by decide)).2⟩

theorem bindEvents_get : ∀ (params : List String) (i k : Nat),
    (bindEvents params i)[k]? =
      (params[k]?).map fun p => Ev.bindText (i + k + 1) p true
  | [], _, k => by simp [bindEvents]
  | p :: rest, i, 0 => by simp [bindEvents]
  | p :: rest, i, k + 1 => by
    simpa [bindEvents, show i + 1 + k = i + (k + 1) by omega]
      using bindEvents_get rest (i + 1) k

theorem bindParams_events (bindOk : Nat → Bool) :
    ∀ (params : List String) (i : Nat), ∀ e ∈ (bindParams bindOk params i).2,
      (∃ p v b, e = Ev.bindText p v b) ∨ ∃ p, e = Ev.bindFailLog p
  | [], i, e, he => by simp [bindParams] at he
  | p :: rest, i, e, he => by
    by_cases h0 : bindOk i
    · simp [bindParams, h0] at he
      rcases he with he | he
      · exact Or.inl ⟨_, _, _, he⟩
      · exact bindParams_events bindOk rest (i + 1) e he
    · simp [bindParams, h0] at he
      rcases he with he | he
      · exact Or.inl ⟨_, _, _, he⟩
      · exact Or.inr ⟨_, he⟩

theorem bindParams_first_fail (bindOk : Nat → Bool) :
    ∀ (params : List String) (i m : Nat), m < params.length →
      bindOk (i + m) = false → (∀ k, k < m → bindOk (i + k) = true) →
      (bindParams bindOk params i).1 = some (i + m + 1) ∧
      Ev.bindFailLog (i + m + 1) ∈ (bindParams bindOk params i).2
  | [], _, m, hm, _, _ => absurd hm (by simp)
  | p :: rest, i, 0, _, hf, _ => by
    have hf' : bindOk i = false := by simpa using hf
    simp [bindParams, hf']
  | p :: rest, i, m + 1, hm, hf, hk => by
    have h0 : bindOk i = true := by simpa using hk 0 (Nat.succ_pos _)
    have ih := bindParams_first_fail bindOk rest (i + 1) m
      (Nat.lt_of_succ_lt_succ hm)
      (by simpa [show i + 1 + m = i + (m + 1) by omega] using hf)
      (fun k hks => by
        simpa [show i + 1 + k = i + (k + 1) by omega]
          using hk (k + 1) (Nat.succ_lt_succ hks))
    constructor
    · simpa [bindParams, h0, show i + 1 + m + 1 = i + (m + 1) + 1 by omega] using ih.1
    · have hmc := List.mem_cons_of_mem (Ev.bindText (i + 1) p true)
        (by simpa [show i + 1 + m + 1 = i + (m + 1) + 1 by omega] using ih.2)
      simpa [bindParams, h0] using hmc

/-- C5: both executions reset the statement and clear prior bindings
before any bind event; every parameter is bound as text at its 1-indexed
position with copy semantics (`transient = true`); and a bind failure at
0-based index j aborts the entire operation — the write returns false, the
read returns the empty sequence, no step is performed — and is logged with
the 1-based index j + 1. -/
theorem bind_contract :
    ∀ (bindOk : Nat → Bool) (stepRc : Nat → StepRc) (params : List String) (fuel : Nat),
      ((∀ k, k < params.length → bindOk k = true) →
        (∃ rest, (executeSQLWithParams true bindOk stepRc params).2 =
            Ev.reset :: Ev.clearBindings :: (bindEvents params 0 ++ rest)) ∧
        (∃ rest, (executeQuery true bindOk stepRc params fuel).trace =
            Ev.reset :: Ev.clearBindings :: (bindEvents params 0 ++ rest))) ∧
      (∀ k, (bindEvents params 0)[k]? =
        (params[k]?).map fun p => Ev.bindText (k + 1) p true) ∧
      (∀ j, j < params.length → bindOk j = false → (∀ k, k < j → bindOk k = true) →
        (executeSQLWithParams true bindOk stepRc params).1 = false ∧
        (executeQuery true bindOk stepRc params fuel).books = [] ∧
        Ev.bindFailLog (j + 1) ∈ (executeSQLWithParams true bindOk stepRc params).2 ∧
        Ev.bindFailLog (j + 1) ∈ (executeQuery true bindOk stepRc params fuel).trace ∧
        Ev.step ∉ (executeSQLWithParams true bindOk stepRc params).2 ∧
        Ev.step ∉ (executeQuery true bindOk stepRc params fuel).trace) := by
  intro bindOk stepRc params fuel
  refine ⟨?_, ?_, ?_⟩
  · intro hb
    have hbp := bindParams_all_ok bindOk params 0 (fun k hk => by simpa using hb k hk)
    constructor
    · exact ⟨[Ev.lockEx] ++ (writeStepLoop stepRc 0 0 SQLITE_MAX_RETRIES).2 ++ [Ev.unlockEx]
        ++ if (writeStepLoop stepRc 0 0 SQLITE_MAX_RETRIES).1.isDone then []
          else [Ev.errorLog],
        by simp [executeSQLWithParams, hbp]⟩
    · exact ⟨(readLoop stepRc 0 0 fuel).trace, by simp [executeQuery, hbp]⟩
  · intro k
    simpa using bindEvents_get params 0 k
  · intro j hj hjf hjk
    have hbf := bindParams_first_fail bindOk params 0 j hj (by simpa using hjf)
      (fun k hk => by simpa using hjk k hk)
    have hev := bindParams_events bindOk params 0
    cases hbp : bindParams bindOk params 0 with
    | mk fst snd =>
      rw [hbp] at hbf hev
      obtain ⟨hfst, hmem⟩ := hbf
      simp only at hfst hmem
      subst hfst
      have hmem' : Ev.bindFailLog (j + 1) ∈ snd := by simpa using hmem
      have hnostep : Ev.step ∉ snd := by
        intro hst
        rcases hev Ev.step hst with ⟨p, v, b, he⟩ | ⟨p, he⟩ <;> cases he
      refine ⟨?_, ?_, ?_, ?_, ?_, ?_⟩
      · simp [executeSQLWithParams, hbp]
      · simp [executeQuery, hbp]
      · simp [executeSQLWithParams, hbp]
        exact hmem'
      · simp [executeQuery, hbp]
        exact hmem'
      · simp [executeSQLWithParams, hbp]
        exact hnostep
      · simp [executeQuery, hbp]
        exact hnostep

/-- C5 witness: the theorem applied to a two-parameter operation whose
second bind fails — the write fails, the read is empty, the failure is
logged at 1-based index 2, and no step occurs. -/
theorem bind_contract_witness :
    (∃ rest, (executeSQLWithParams true (fun _ => true) (fun _ => StepRc.done)
        ["a", "b"]).2 =
      Ev.reset :: Ev.clearBindings :: (bindEvents ["a", "b"] 0 ++ rest)) ∧
    (∃ rest, (executeQuery true (fun _ => true) (fun _ => StepRc.done)
        ["a", "b"] 4).trace =
      Ev.reset :: Ev.clearBindings :: (bindEvents ["a", "b"] 0 ++ rest)) ∧
    (bindEvents ["a", "b"] 0)[1]? = some (Ev.bindText 2 "b" true) ∧
    ((executeSQLWithParams true (fun i => i == 0) (fun _ => StepRc.done) ["a", "b"]).1 = false ∧
      (executeQuery true (fun i => i == 0) (fun _ => StepRc.done) ["a", "b"] 4).books = [] ∧
      Ev.bindFailLog 2 ∈ (executeSQLWithParams true (fun i => i == 0)
        (fun _ => StepRc.done) ["a", "b"]).2 ∧
      Ev.bindFailLog 2 ∈ (executeQuery true (fun i => i == 0)
        (fun _ => StepRc.done) ["a", "b"] 4).trace ∧
      Ev.step ∉ (executeSQLWithParams true (fun i => i == 0)
        (fun _ => StepRc.done) ["a", "b"]).2 ∧
      Ev.step ∉ (executeQuery true (fun i => i == 0)
        (fun _ => StepRc.done) ["a", "b"] 4).trace) :=
  ⟨((bind_contract (fun _ => true) (fun _ => StepRc.done) ["a", "b"] 4).1
      (fun _ _ => rfl)).1,
   ((bind_contract (fun _ => true) (fun _ => StepRc.done) ["a", "b"] 4).1
      (fun _ _ => rfl)).2,
   by simpa using (bind_contract (fun i => i == 0) (fun _ => StepRc.done) ["a", "b"] 4).2.1 1,
   (bind_contract (fun i => i == 0) (fun _ => StepRc.done) ["a", "b"] 4).2.2 1
     (by decide) (by decide)
     (fun k hk => by
       have hk0 : k = 0 := by omega
       subst hk0
       rfl)⟩

/-- C7: during initialization, pragma failures and a failed
composite-index creation are logged as errors but non-fatal —
initialization still reports success and construction completes — whereas
a failure to create the books table is fatal: initialization reports
failure and construction of the whole system aborts with an error. -/
theorem init_error_fatality :
    ∀ (pragmaOk : Nat → Bool) (indexOk : Bool),
      (initDatabase true pragmaOk true indexOk).1 = true ∧
      (∀ i, i < PRAGMA_COUNT → pragmaOk i = false →
        InitEv.pragmaErrLog i ∈ (initDatabase true pragmaOk true indexOk).2) ∧
      (indexOk = false → InitEv.indexErrLog ∈ (initDatabase true pragmaOk true indexOk).2) ∧
      (initDatabase true pragmaOk false indexOk).1 = false ∧
      constructArchive true pragmaOk false indexOk =
        Except.error "Failed to initialize database" ∧
      constructArchive true pragmaOk true indexOk = Except.ok () := by
  intro pragmaOk indexOk
  refine ⟨?_, ?_, ?_, ?_, ?_, ?_⟩
  · simp [initDatabase]
  · intro i hi hp
    simp only [initDatabase, if_true]
    refine List.mem_append_left _ ?_
    rw [List.mem_filterMap]
    exact ⟨i, List.mem_range.mpr hi, by simp [hp]⟩
  · intro hidx
    simp [initDatabase, hidx]
  · simp [initDatabase]
  · simp [constructArchive, initDatabase]
  · simp [constructArchive, initDatabase]

/-- C7 witness: the theorem applied with every pragma failing and the
index creation failing — initialization still succeeds and construction
completes; with table creation failing, construction aborts. -/
theorem init_error_fatality_witness :
    (initDatabase true (fun _ => false) true false).1 = true ∧
    InitEv.pragmaErrLog 0 ∈ (initDatabase true (fun _ => false) true false).2 ∧
    InitEv.indexErrLog ∈ (initDatabase true (fun _ => false) true false).2 ∧
    (initDatabase true (fun _ => false) false false).1 = false ∧
    constructArchive true (fun _ => false) false false =
      Except.error "Failed to initialize database" ∧
    constructArchive true (fun _ => false) true false = Except.ok () :=
  ⟨(init_error_fatality (fun _ => false) false).1,
   (init_error_fatality (fun _ => false) false).2.1 0 (by decide) rfl,
   (init_error_fatality (fun _ => false) false).2.2.1 rfl,
   (init_error_fatality (fun _ => false) false).2.2.2.1,
   (init_error_fatality (fun _ => false) false).2.2.2.2.1,
   (init_error_fatality (fun _ => false) false).2.2.2.2.2⟩

end BookArchive
